import Mathlib

/-!
Verification development for the numeric core of the jup-ag/protocol
repository: the amm pool state (src/programs/amm/src/state/pool.rs),
pool creation (src/programs/amm/src/instructions/create_pool.rs) and the
invariant-types fixed-point decimal layer
(src/programs/invariant/invariant-types/src/decimals.rs).

Machine integers are embedded as Nat with explicit range checks at every
checked operation; Rust panics (an .unwrap() on None / Err) are embedded
as the failure value of Option or Except.
-/

/-- Upper bound (exclusive) of the u64 range. -/
def U64_LIMIT : Nat := 2 ^ 64

/-- Upper bound (exclusive) of the u128 range. -/
def U128_LIMIT : Nat := 2 ^ 128

/-- Upper bound (exclusive) of the U256 range (the 256-bit wide helper). -/
def U256_LIMIT : Nat := 2 ^ 256

namespace U256

/-- U256::checked_mul: the product, or None when it exceeds 256 bits. -/
def checked_mul (a b : Nat) : Option Nat :=
if a * b < U256_LIMIT then some (a * b) else none

/-- U256::checked_add: the sum, or None when it exceeds 256 bits. -/
def checked_add (a b : Nat) : Option Nat :=
if a + b < U256_LIMIT then some (a + b) else none

/-- U256::checked_sub: the difference, or None when it would be negative. -/
def checked_sub (a b : Nat) : Option Nat :=
if b ≤ a then some (a - b) else none

/-- U256::checked_div: the floor quotient, or None when the divisor is zero. -/
def checked_div (a b : Nat) : Option Nat :=
if b = 0 then none else some (a / b)

end U256

/-- Account addresses; their identity is irrelevant to the numeric core. -/
abbrev Pubkey := Nat

/-- Modelled from the spec: the amm program's unified `Decimal` type
(src/programs/amm/src/decimal.rs is not among the provided sources).
Per the spec's data model it is a scaled integer: a 128-bit unsigned
magnitude with a compile-time fixed decimal scale; the amm program uses
the generic fee/ratio scale of 12 fractional digits. -/
structure Decimal where
  v : Nat
deriving Repr, DecidableEq

namespace Decimal

/-- The fixed decimal scale of the amm Decimal. -/
def SCALE : Nat := 12

/-- The raw magnitude of one unit, 10 ^ SCALE. -/
def DENOMINATOR : Nat := 10 ^ SCALE

/-- Decimal::new: wrap a raw magnitude. -/
def new (v : Nat) : Decimal := ⟨v⟩

/-- Decimal::from_integer: n × 10^scale. -/
def from_integer (n : Nat) : Decimal := ⟨n * DENOMINATOR⟩

/-- Decimal::from_decimal(value, src_scale): rescale with truncation
toward zero on scale reduction. -/
def from_decimal (val scale : Nat) : Decimal := ⟨val * DENOMINATOR / 10 ^ scale⟩

/-- Decimal::one. -/
def one : Decimal := from_integer 1

/-- Modelled from the spec: checked same-type addition; fails with an
overflow error (never wraps) when the sum exceeds the 128-bit range. -/
def add? (a b : Decimal) : Option Decimal :=
if a.v + b.v < U128_LIMIT then some ⟨a.v + b.v⟩ else none

/-- Modelled from the spec: checked same-type subtraction; fails (never
wraps) when the difference would be negative. -/
def sub? (a b : Decimal) : Option Decimal :=
if b.v ≤ a.v then some ⟨a.v - b.v⟩ else none

/-- Modelled from the spec: scaled division. Both operands widen into the
256-bit helper, the nominator is rescaled by the unit, the quotient is
floor-rounded and narrowed back to 128 bits; fails on a zero divisor and
when the narrowing does not fit. -/
def div? (a b : Decimal) : Option Decimal :=
if b.v = 0 then none
else if a.v * DENOMINATOR / b.v < U128_LIMIT then some ⟨a.v * DENOMINATOR / b.v⟩
else none

end Decimal

/-- ErrorCode values reachable from the embedded pool operations. -/
inductive ErrorCode where
  | invalidPoolLiquidity
deriving Repr, DecidableEq

instance {e a : Type} [DecidableEq e] [DecidableEq a] : DecidableEq (Except e a) :=
  fun x y =>
    match x, y with
    | Except.ok u, Except.ok v =>
      if h : u = v then isTrue (by rw [h])
      else isFalse (fun hc => h (by injection hc))
    | Except.ok u, Except.error g => isFalse (fun hc => Except.noConfusion hc)
    | Except.error f, Except.ok v => isFalse (fun hc => Except.noConfusion hc)
    | Except.error f, Except.error g =>
      if h : f = g then isTrue (by rw [h])
      else isFalse (fun hc => h (by injection hc))

/-- The Pool record of src/programs/amm/src/state/pool.rs value for value. -/
structure Pool where
  token_x : Pubkey
  token_y : Pubkey
  token_x_reserve : Pubkey
  token_y_reserve : Pubkey
  position_iterator : Nat
  tick_spacing : Nat
  fee : Decimal
  protocol_fee : Decimal
  liquidity : Decimal
  sqrt_price : Decimal
  current_tick_index : Int
  tickmap : Pubkey
  fee_growth_global_x : Decimal
  fee_growth_global_y : Decimal
  fee_protocol_token_x : Decimal
  fee_protocol_token_y : Decimal
  bump : Nat
  nonce : Nat
  authority : Pubkey
deriving Repr, DecidableEq

namespace Pool

/-- Pool::add_fee (pool.rs lines 30-39): a guard returns the pool
untouched when the amount or the current liquidity is zero; otherwise the
scaled quotient amount / liquidity is added to the global fee-growth
accumulator selected by x. The outer None embeds a panic of the
underlying checked decimal arithmetic. -/
def add_fee (self : Pool) (amount : Decimal) (x : Bool) : Option Pool :=
if amount = Decimal.new 0 ∨ self.liquidity = Decimal.new 0 then some self
else
  match Decimal.div? amount self.liquidity with
  | none => none
  | some q =>
    if x then
      match Decimal.add? self.fee_growth_global_x q with
      | none => none
      | some fg => some { self with fee_growth_global_x := fg }
    else
      match Decimal.add? self.fee_growth_global_y q with
      | none => none
      | some fg => some { self with fee_growth_global_y := fg }

/-- Pool::update_liquidity_safely (pool.rs lines 41-57). The result pairs
the Rust Result with the record after the call (mirroring &mut self); the
outer None embeds a panic of the checked decimal arithmetic. In the
decrease case the guard fires before any write, so the record carried by
the error is the input itself. -/
def update_liquidity_safely (self : Pool) (liquidity_delta : Decimal) (add : Bool) :
    Option (Except ErrorCode Unit × Pool) :=
if add = false ∧ self.liquidity.v < liquidity_delta.v then
  some (Except.error ErrorCode.invalidPoolLiquidity, self)
else
  match (if add then Decimal.add? self.liquidity liquidity_delta
         else Decimal.sub? self.liquidity liquidity_delta) with
  | none => none
  | some l => some (Except.ok (), { self with liquidity := l })

end Pool

/-- A concrete pool used to instantiate the universally quantified
theorems below. -/
def poolExample : Pool :=
  { token_x := 0, token_y := 0, token_x_reserve := 0, token_y_reserve := 0
    position_iterator := 0, tick_spacing := 1
    fee := Decimal.new 0, protocol_fee := Decimal.from_decimal 1 1
    liquidity := Decimal.from_integer 2
    sqrt_price := Decimal.one, current_tick_index := 0, tickmap := 0
    fee_growth_global_x := Decimal.new 0, fee_growth_global_y := Decimal.new 0
    fee_protocol_token_x := Decimal.new 0, fee_protocol_token_y := Decimal.new 0
    bump := 0, nonce := 0, authority := 0 }

/-- Liquidity (decimals.rs, scale 6, u128 magnitude). -/
structure Liquidity where
  v : Nat
deriving Repr, DecidableEq

/-- Price (decimals.rs, scale 24, u128 magnitude). -/
structure Price where
  v : Nat
deriving Repr, DecidableEq

/-- FeeGrowth (decimals.rs, scale 24, u128 magnitude). -/
structure FeeGrowth where
  v : Nat
deriving Repr, DecidableEq

/-- FixedPoint (decimals.rs, scale 12, u128 magnitude). -/
structure FixedPoint where
  v : Nat
deriving Repr, DecidableEq

/-- TokenAmount (decimals.rs, scale 0, u64 magnitude). -/
structure TokenAmount where
  v : Nat
deriving Repr, DecidableEq

namespace Liquidity

/-- The decimal scale of Liquidity. -/
def scale : Nat := 6

/-- Liquidity::one as a raw magnitude (used widened to U256 in decimals.rs). -/
def one : Nat := 10 ^ scale

/-- Liquidity::from_integer: n × 10^6. -/
def from_integer (n : Nat) : Liquidity := ⟨n * one⟩

/-- Liquidity::here::<U256>(): the raw magnitude widened. -/
def here (self : Liquidity) : Nat := self.v

end Liquidity

namespace FeeGrowth

/-- The decimal scale of FeeGrowth. -/
def scale : Nat := 24

/-- FeeGrowth::one as a raw magnitude. -/
def one : Nat := 10 ^ scale

/-- FeeGrowth::from_integer: n × 10^24. -/
def from_integer (n : Nat) : FeeGrowth := ⟨n * one⟩

/-- FeeGrowth::from_scale(val, s): val × 10^24 rescaled down by 10^s,
truncation toward zero. -/
def from_scale (val s : Nat) : FeeGrowth := ⟨val * one / 10 ^ s⟩

/-- FeeGrowth::from_fee (decimals.rs lines 59-71):
U256(fee) × FeeGrowth::one × Liquidity::one / liquidity, every step a
checked U256 operation followed by .unwrap(), then a narrowing
try_into::<u128>().unwrap(). None embeds a panic of any of the unwraps
(division by a zero liquidity, or a quotient too wide for u128). -/
def from_fee (liquidity : Liquidity) (fee : TokenAmount) : Option FeeGrowth :=
  (U256.checked_mul fee.v FeeGrowth.one).bind fun a =>
  (U256.checked_mul a Liquidity.one).bind fun b =>
  (U256.checked_div b liquidity.here).bind fun q =>
  if q < U128_LIMIT then some ⟨q⟩ else none

end FeeGrowth

namespace FixedPoint

/-- The decimal scale of FixedPoint. -/
def scale : Nat := 12

/-- FixedPoint::one as a raw magnitude. -/
def one : Nat := 10 ^ scale

/-- FixedPoint::from_integer: n × 10^12. -/
def from_integer (n : Nat) : FixedPoint := ⟨n * one⟩

/-- FixedPoint::from_decimal(token_amount): rescale from scale 0 up to
scale 12, i.e. multiply by 10^12. -/
def from_decimal (amount : TokenAmount) : FixedPoint := ⟨amount.v * one⟩

end FixedPoint

namespace FeeGrowth

/-- FeeGrowth::to_fee (decimals.rs lines 73-86):
U256(growth) × liquidity / 10^(scale(FeeGrowth)+scale(Liquidity)-scale(FixedPoint)),
checked at every step, narrowed to u128 with a panic message when the
quotient does not fit. None embeds that panic. -/
def to_fee (self : FeeGrowth) (liquidity : Liquidity) : Option FixedPoint :=
  (U256.checked_mul self.v liquidity.here).bind fun a =>
  (U256.checked_div a (10 ^ (FeeGrowth.scale + Liquidity.scale - FixedPoint.scale))).bind fun q =>
  if q < U128_LIMIT then some ⟨q⟩ else none

end FeeGrowth

namespace Price

/-- The decimal scale of Price. -/
def scale : Nat := 24

/-- Price::one::<U256>() as a raw magnitude. -/
def one : Nat := 10 ^ scale

/-- Price::almost_one::<U256>(): one unit minus one raw step. -/
def almost_one : Nat := 10 ^ scale - 1

/-- Price::big_div_values_to_token (decimals.rs lines 100-129).
Except.error embeds a panic (the .unwrap() after checked_div when the
denominator is zero); Except.ok none is the Rust None return, taken when
the extension nominator × one overflows 256 bits or when the final
quotient does not fit u64. -/
def big_div_values_to_token (nominator denominator : Nat) :
    Except Unit (Option TokenAmount) :=
  match U256.checked_mul nominator Price.one with
  | none => Except.ok none
  | some extended =>
    match (U256.checked_div extended denominator).bind (fun t =>
          U256.checked_div t Price.one) with
    | none => Except.error ()
    | some token_amount =>
      if token_amount < U64_LIMIT then Except.ok (some ⟨token_amount⟩)
      else Except.ok none

/-- Price::big_div_values_to_token_up (decimals.rs lines 131-150).
Every checked step is followed by .unwrap() — Except.error embeds those
panics (zero denominator, or any 256-bit overflow along the way), which
all collapse to the same failure value, so the checked steps are folded
with Option.bind; only the final narrowing try_into returns the Rust
None (Except.ok none). -/
def big_div_values_to_token_up (nominator denominator : Nat) :
    Except Unit (Option TokenAmount) :=
  match (U256.checked_mul nominator Price.one).bind (fun a =>
        (U256.checked_sub denominator 1).bind (fun dm1 =>
        (U256.checked_add a dm1).bind (fun b =>
        (U256.checked_div b denominator).bind (fun c =>
        (U256.checked_add c Price.almost_one).bind (fun d =>
        U256.checked_div d Price.one))))) with
  | none => Except.error ()
  | some e =>
    if e < U64_LIMIT then Except.ok (some ⟨e⟩)
    else Except.ok none

end Price

/-- Modelled from the spec: the amm program's FeeTier record
(src/programs/amm/src/state/fee_tier.rs is not among the provided
sources; the invariant program's fee_tier.rs in src/ has the same shape).
Immutable configuration: a swap fee fraction and a tick spacing, plus the
address bump. -/
structure FeeTierAmm where
  fee : Decimal
  tick_spacing : Nat
  bump : Nat
deriving Repr, DecidableEq

/-- The non-pool accounts consumed by the create_pool handler, reduced to
the data the handler reads from them. -/
structure CreatePoolAccounts where
  fee_tier : FeeTierAmm
  token_x : Pubkey
  token_y : Pubkey
  token_x_reserve : Pubkey
  token_y_reserve : Pubkey
  tickmap : Pubkey
  program_authority : Pubkey
deriving Repr, DecidableEq

/-- The create_pool handler (create_pool.rs lines 34-70), writing every
field of the fresh Pool record. The tick-to-price function
calculate_price_sqrt lives in the amm program's math.rs, which is not
among the provided sources, so the handler is parameterized by it; every
theorem below quantifies over that function. -/
def create_pool_handler (calculate_price_sqrt : Int → Decimal)
    (accounts : CreatePoolAccounts) (bump nonce : Nat) (init_tick : Int) : Pool :=
  { token_x := accounts.token_x
    token_y := accounts.token_y
    token_x_reserve := accounts.token_x_reserve
    token_y_reserve := accounts.token_y_reserve
    tick_spacing := accounts.fee_tier.tick_spacing
    fee := accounts.fee_tier.fee
    protocol_fee := Decimal.from_decimal 1 1
    liquidity := Decimal.new 0
    sqrt_price := calculate_price_sqrt init_tick
    current_tick_index := init_tick
    tickmap := accounts.tickmap
    fee_growth_global_x := Decimal.new 0
    fee_growth_global_y := Decimal.new 0
    fee_protocol_token_x := Decimal.new 0
    fee_protocol_token_y := Decimal.new 0
    position_iterator := 0
    bump := bump
    nonce := nonce
    authority := accounts.program_authority }

/-! Arithmetic helper lemmas about floor and ceiling division. -/

/-- Ceiling division written as (x + y - 1) / y, unfolded one step. -/
theorem ceil_div_succ (x y : Nat) (hx : 0 < x) (hy : 0 < y) :
    (x + y - 1) / y = (x - 1) / y + 1 := by
  have h : x + y - 1 = (x - 1) + y := by omega
  rw [h, Nat.add_div_right _ hy]

/-- Two nested ceiling divisions collapse into one. -/
theorem ceil_ceil (x a b : Nat) (ha : 0 < a) (hb : 0 < b) :
    ((x + a - 1) / a + b - 1) / b = (x + a * b - 1) / (a * b) := by
  rcases Nat.eq_zero_or_pos x with hx | hx
  · subst hx
    have h1 : (a - 1) / a = 0 := Nat.div_eq_of_lt (by omega)
    have h2 : (a * b - 1) / (a * b) = 0 := Nat.div_eq_of_lt (by
      have := Nat.mul_pos ha hb
      omega)
    rw [Nat.zero_add, Nat.zero_add, h1, Nat.zero_add, h2]
    exact Nat.div_eq_of_lt (by omega)
  · rw [ceil_div_succ x a hx ha,
      ceil_div_succ _ b (Nat.succ_pos _) hb,
      Nat.succ_sub_one, Nat.div_div_eq_div_mul,
      ceil_div_succ x (a * b) hx (Nat.mul_pos ha hb)]

/-- Ceiling division is invariant under scaling both operands. -/
theorem ceil_mul_right (n d E : Nat) (hd : 0 < d) (hE : 0 < E) :
    (n * E + d * E - 1) / (d * E) = (n + d - 1) / d := by
  rcases Nat.eq_zero_or_pos n with hn | hn
  · subst hn
    rw [Nat.zero_mul, Nat.zero_add, Nat.zero_add,
      Nat.div_eq_of_lt (by have := Nat.mul_pos hd hE; omega),
      Nat.div_eq_of_lt (by omega)]
  · rw [ceil_div_succ (n * E) (d * E) (Nat.mul_pos hn hE) (Nat.mul_pos hd hE),
      ceil_div_succ n d hn hd]
    congr 1
    have key : n * E - 1 = (n - 1) * E + (E - 1) := by
      cases n with
      | zero => omega
      | succ m => rw [Nat.succ_mul]; simp; omega
    have hE0 : (E - 1) / E = 0 := Nat.div_eq_of_lt (by omega)
    rw [key, Nat.mul_comm d E, ← Nat.div_div_eq_div_mul, Nat.mul_comm (n - 1) E,
      Nat.mul_add_div hE, hE0, Nat.add_zero]

/-! Characterizations of the embedded decimal operations. -/

/-- FeeGrowth::from_fee on a nonzero liquidity: the checked U256
multiplications never overflow for a u64 fee, so the call reduces to the
narrowing check on floor(fee × 10^24 × 10^6 / liquidity). -/
theorem from_fee_eq (l : Liquidity) (fee : TokenAmount)
    (hl : l.v ≠ 0) (hfee : fee.v < U64_LIMIT) :
    FeeGrowth.from_fee l fee =
      if fee.v * 10 ^ 24 * 10 ^ 6 / l.v < U128_LIMIT
      then some ⟨fee.v * 10 ^ 24 * 10 ^ 6 / l.v⟩ else none := by
  have h24 : FeeGrowth.one = 10 ^ 24 := rfl
  have h6 : Liquidity.one = 10 ^ 6 := rfl
  have h1 : fee.v * 10 ^ 24 < 2 ^ 64 * 10 ^ 24 :=
    mul_lt_mul_of_pos_right hfee (by positivity)
  have hm1 : fee.v * 10 ^ 24 < U256_LIMIT := by
    have h2 : (2:Nat) ^ 64 * 10 ^ 24 < 2 ^ 256 := by norm_num
    have := lt_trans h1 h2
    simpa [U256_LIMIT] using this
  have hm2 : fee.v * 10 ^ 24 * 10 ^ 6 < U256_LIMIT := by
    have h3 : fee.v * 10 ^ 24 * 10 ^ 6 < 2 ^ 64 * 10 ^ 24 * 10 ^ 6 :=
      mul_lt_mul_of_pos_right h1 (by positivity)
    have h4 : (2:Nat) ^ 64 * 10 ^ 24 * 10 ^ 6 < 2 ^ 256 := by norm_num
    have := lt_trans h3 h4
    simpa [U256_LIMIT] using this
  norm_num at hm1 hm2
  simp [FeeGrowth.from_fee, U256.checked_mul, U256.checked_div, Liquidity.here,
    h24, h6, hm1, hm2, hl]

/-- FeeGrowth::from_fee panics (fails) on a zero liquidity. -/
theorem from_fee_zero (l : Liquidity) (fee : TokenAmount) (hl : l.v = 0) :
    FeeGrowth.from_fee l fee = none := by
  by_cases h1 : fee.v * FeeGrowth.one < U256_LIMIT
  · by_cases h2 : fee.v * FeeGrowth.one * Liquidity.one < U256_LIMIT
    · simp [FeeGrowth.from_fee, U256.checked_mul, U256.checked_div,
        Liquidity.here, hl, h1, h2]
    · simp [FeeGrowth.from_fee, U256.checked_mul, U256.checked_div,
        Liquidity.here, hl, h1, h2]
  · simp [FeeGrowth.from_fee, U256.checked_mul, hl, h1]

/-- FeeGrowth::to_fee on in-range (u128) operands: the wide
multiplication cannot overflow, so the call reduces to the narrowing
check on floor(growth × liquidity / 10^18). -/
theorem to_fee_eq (g : FeeGrowth) (l : Liquidity)
    (hg : g.v < U128_LIMIT) (hl : l.v < U128_LIMIT) :
    FeeGrowth.to_fee g l =
      if g.v * l.v / 10 ^ 18 < U128_LIMIT
      then some ⟨g.v * l.v / 10 ^ 18⟩ else none := by
  have hmul : g.v * l.v < U256_LIMIT := by
    have h := Nat.mul_lt_mul'' hg hl
    have h2 : U128_LIMIT * U128_LIMIT = U256_LIMIT := by
      norm_num [U128_LIMIT, U256_LIMIT]
    rw [h2] at h
    exact h
  have hsc : (10:Nat) ^ (FeeGrowth.scale + Liquidity.scale - FixedPoint.scale)
      = 10 ^ 18 := by norm_num [FeeGrowth.scale, Liquidity.scale, FixedPoint.scale]
  have h18 : ((10:Nat) ^ 18) ≠ 0 := by positivity
  simp [FeeGrowth.to_fee, U256.checked_mul, U256.checked_div, Liquidity.here,
    hmul, hsc, h18]

/-- A Decimal equals Decimal::new(0) exactly when its raw magnitude is 0. -/
theorem Decimal.eq_new_zero_iff (a : Decimal) : a = Decimal.new 0 ↔ a.v = 0 := by
  cases a
  simp [Decimal.new]

/-- A successful checked Decimal addition never decreases the left operand. -/
theorem Decimal.add?_le {a b c : Decimal} (h : Decimal.add? a b = some c) :
    a.v ≤ c.v := by
  unfold Decimal.add? at h
  split at h
  · injection h with h
    subst h
    exact Nat.le_add_right _ _
  · simp at h

/-- C1: update_liquidity_safely(delta, add=false) fails with the
InvalidPoolLiquidity error and leaves the whole record unchanged when
delta exceeds the current liquidity; otherwise it succeeds with liquidity
replaced by liquidity - delta; update_liquidity_safely(delta, add=true)
succeeds with liquidity + delta whenever that sum fits u128. -/
theorem C1_update_liquidity_safely (p : Pool) (delta : Decimal) :
    (p.liquidity.v < delta.v →
      p.update_liquidity_safely delta false =
        some (Except.error ErrorCode.invalidPoolLiquidity, p)) ∧
    (delta.v ≤ p.liquidity.v →
      p.update_liquidity_safely delta false =
        some (Except.ok (), { p with liquidity := ⟨p.liquidity.v - delta.v⟩ })) ∧
    (p.liquidity.v + delta.v < U128_LIMIT →
      p.update_liquidity_safely delta true =
        some (Except.ok (), { p with liquidity := ⟨p.liquidity.v + delta.v⟩ })) := by
  refine ⟨fun h => ?_, fun h => ?_, fun h => ?_⟩
  · simp [Pool.update_liquidity_safely, h]
  · have h2 : ¬ p.liquidity.v < delta.v := Nat.not_lt.mpr h
    simp [Pool.update_liquidity_safely, h2, Decimal.sub?, h]
  · simp [Pool.update_liquidity_safely, Decimal.add?, h]

/-- Witness for C1 at a concrete pool: both failure and both success
branches observed on explicit inputs. -/
theorem C1_update_liquidity_safely_witness :
    (poolExample.update_liquidity_safely ⟨10 ^ 13⟩ false =
      some (Except.error ErrorCode.invalidPoolLiquidity, poolExample)) ∧
    (poolExample.update_liquidity_safely ⟨10 ^ 12⟩ false =
      some (Except.ok (),
        { poolExample with liquidity := ⟨poolExample.liquidity.v - (10 ^ 12 : Nat)⟩ })) ∧
    (poolExample.update_liquidity_safely ⟨5⟩ true =
      some (Except.ok (),
        { poolExample with liquidity := ⟨poolExample.liquidity.v + (5 : Nat)⟩ })) :=
  ⟨(C1_update_liquidity_safely poolExample ⟨10 ^ 13⟩).1 (by decide),
   (C1_update_liquidity_safely poolExample ⟨10 ^ 12⟩).2.1 (by decide),
   (C1_update_liquidity_safely poolExample ⟨5⟩).2.2 (by decide)⟩

/-- C5: add_fee is a no-op, returning every field unchanged, whenever the
amount is zero or the current pool liquidity is zero. -/
theorem C5_add_fee_noop (p : Pool) (amount : Decimal) (x : Bool)
    (h : amount = Decimal.new 0 ∨ p.liquidity = Decimal.new 0) :
    p.add_fee amount x = some p := by
  unfold Pool.add_fee
  rw [if_pos h]

/-- Witness for C5: a zero amount on a concrete pool. -/
theorem C5_add_fee_noop_witness :
    poolExample.add_fee (Decimal.new 0) true = some poolExample :=
  C5_add_fee_noop poolExample (Decimal.new 0) true (Or.inl rfl)

/-- C6 counterexample: a pool with nonzero liquidity (raw 1) and a
nonzero amount whose scaled quotient exceeds u128: add_fee fails (the
division panics) instead of accumulating the quotient into
fee_growth_global_x. -/
theorem C6_add_fee_counterexample :
    ((⟨2 ^ 127⟩ : Decimal) ≠ Decimal.new 0) ∧
    (({ poolExample with liquidity := ⟨1⟩ } : Pool).liquidity ≠ Decimal.new 0) ∧
    ({ poolExample with liquidity := ⟨1⟩ } : Pool).add_fee ⟨2 ^ 127⟩ true = none := by
  decide

/-- C6 (amended): for nonzero amount and nonzero pool liquidity, and
provided the scaled quotient fits u128 and the accumulator addition does
not overflow, add_fee adds floor(amount × 10^12 / liquidity) to exactly
the accumulator selected by is_token_x, leaving every other field
unchanged. -/
theorem C6_add_fee_accumulates (p : Pool) (amount : Decimal) (x : Bool)
    (hamt : amount ≠ Decimal.new 0) (hliq : p.liquidity ≠ Decimal.new 0)
    (hdiv : amount.v * Decimal.DENOMINATOR / p.liquidity.v < U128_LIMIT) :
    (x = true →
      p.fee_growth_global_x.v + amount.v * Decimal.DENOMINATOR / p.liquidity.v
          < U128_LIMIT →
      p.add_fee amount x = some { p with fee_growth_global_x :=
        ⟨p.fee_growth_global_x.v
          + amount.v * Decimal.DENOMINATOR / p.liquidity.v⟩ }) ∧
    (x = false →
      p.fee_growth_global_y.v + amount.v * Decimal.DENOMINATOR / p.liquidity.v
          < U128_LIMIT →
      p.add_fee amount x = some { p with fee_growth_global_y :=
        ⟨p.fee_growth_global_y.v
          + amount.v * Decimal.DENOMINATOR / p.liquidity.v⟩ }) := by
  have hlv : p.liquidity.v ≠ 0 :=
    fun h0 => hliq ((Decimal.eq_new_zero_iff _).mpr h0)
  refine ⟨fun hx hadd => ?_, fun hx hadd => ?_⟩ <;> subst hx <;>
    simp [Pool.add_fee, not_or, hamt, hliq, Decimal.div?, hlv, hdiv,
      Decimal.add?, hadd]

/-- Witness for C6 (amended) on a concrete pool and amount. -/
theorem C6_add_fee_accumulates_witness :
    poolExample.add_fee ⟨10⟩ true =
      some { poolExample with fee_growth_global_x :=
        ⟨poolExample.fee_growth_global_x.v
          + (⟨10⟩ : Decimal).v * Decimal.DENOMINATOR / poolExample.liquidity.v⟩ } :=
  (C6_add_fee_accumulates poolExample ⟨10⟩ true (by decide) (by decide)
    (by decide)).1 rfl (by decide)

/-- C7: both global fee-growth accumulators are monotonically
non-decreasing across every completed core operation: any add_fee call
that returns a pool, and any update_liquidity_safely call that returns a
(result, pool) pair, yields accumulators at least as large as before. -/
theorem C7_fee_growth_monotone :
    (∀ (p : Pool) (amount : Decimal) (x : Bool) (q : Pool),
      p.add_fee amount x = some q →
      p.fee_growth_global_x.v ≤ q.fee_growth_global_x.v ∧
      p.fee_growth_global_y.v ≤ q.fee_growth_global_y.v) ∧
    (∀ (p : Pool) (delta : Decimal) (add : Bool) (r : Except ErrorCode Unit) (q : Pool),
      p.update_liquidity_safely delta add = some (r, q) →
      p.fee_growth_global_x.v ≤ q.fee_growth_global_x.v ∧
      p.fee_growth_global_y.v ≤ q.fee_growth_global_y.v) := by
  constructor
  · intro p amount x q h
    unfold Pool.add_fee at h
    split at h
    · injection h with h
      subst h
      exact ⟨Nat.le_refl _, Nat.le_refl _⟩
    · split at h
      · simp at h
      · split at h
        · split at h
          · simp at h
          · rename_i fg hadd
            injection h with h
            subst h
            exact ⟨Decimal.add?_le hadd, Nat.le_refl _⟩
        · split at h
          · simp at h
          · rename_i fg hadd
            injection h with h
            subst h
            exact ⟨Nat.le_refl _, Decimal.add?_le hadd⟩
  · intro p delta add r q h
    unfold Pool.update_liquidity_safely at h
    split at h
    · injection h with h
      cases h
      exact ⟨Nat.le_refl _, Nat.le_refl _⟩
    · cases hop : (if add then Decimal.add? p.liquidity delta
                   else Decimal.sub? p.liquidity delta) with
      | none => rw [hop] at h; simp at h
      | some l =>
        rw [hop] at h
        injection h with h
        cases h
        exact ⟨Nat.le_refl _, Nat.le_refl _⟩

/-- Witness for C7: both conjuncts applied on concrete calls. -/
theorem C7_fee_growth_monotone_witness :
    (poolExample.fee_growth_global_x.v ≤
        ({ poolExample with fee_growth_global_x := ⟨5⟩ } : Pool).fee_growth_global_x.v ∧
      poolExample.fee_growth_global_y.v ≤
        ({ poolExample with fee_growth_global_x := ⟨5⟩ } : Pool).fee_growth_global_y.v) ∧
    (poolExample.fee_growth_global_x.v ≤
        ({ poolExample with liquidity := ⟨2000000000001⟩ } : Pool).fee_growth_global_x.v ∧
      poolExample.fee_growth_global_y.v ≤
        ({ poolExample with liquidity := ⟨2000000000001⟩ } : Pool).fee_growth_global_y.v) :=
  ⟨C7_fee_growth_monotone.1 poolExample ⟨10⟩ true _ (by decide),
   C7_fee_growth_monotone.2 poolExample ⟨1⟩ true (Except.ok ()) _ (by decide)⟩

/-- C8: for every tick-to-price function, fee tier and accounts, pool
creation yields a record with sqrt_price computed from the initial tick,
current_tick_index equal to the initial tick, zero liquidity, all four
fee accumulators zero, protocol_fee equal to one tenth of a unit (10%),
and fee and tick_spacing copied from the fee tier. -/
theorem C8_create_pool_fields (calc_sqrt : Int → Decimal)
    (accounts : CreatePoolAccounts) (bump nonce : Nat) (init_tick : Int) :
    (create_pool_handler calc_sqrt accounts bump nonce init_tick).sqrt_price
        = calc_sqrt init_tick ∧
    (create_pool_handler calc_sqrt accounts bump nonce init_tick).current_tick_index
        = init_tick ∧
    (create_pool_handler calc_sqrt accounts bump nonce init_tick).liquidity
        = Decimal.new 0 ∧
    (create_pool_handler calc_sqrt accounts bump nonce init_tick).fee_growth_global_x
        = Decimal.new 0 ∧
    (create_pool_handler calc_sqrt accounts bump nonce init_tick).fee_growth_global_y
        = Decimal.new 0 ∧
    (create_pool_handler calc_sqrt accounts bump nonce init_tick).fee_protocol_token_x
        = Decimal.new 0 ∧
    (create_pool_handler calc_sqrt accounts bump nonce init_tick).fee_protocol_token_y
        = Decimal.new 0 ∧
    (create_pool_handler calc_sqrt accounts bump nonce init_tick).protocol_fee
        = Decimal.from_decimal 1 1 ∧
    (create_pool_handler calc_sqrt accounts bump nonce init_tick).protocol_fee.v * 10
        = Decimal.one.v ∧
    (create_pool_handler calc_sqrt accounts bump nonce init_tick).fee
        = accounts.fee_tier.fee ∧
    (create_pool_handler calc_sqrt accounts bump nonce init_tick).tick_spacing
        = accounts.fee_tier.tick_spacing := by
  refine ⟨rfl, rfl, rfl, rfl, rfl, rfl, rfl, rfl, ?_, rfl, rfl⟩
  show (Decimal.from_decimal 1 1).v * 10 = Decimal.one.v
  decide

/-- C2: for nonzero liquidity and a u64 fee whose wide quotient fits
u128, from_fee returns the FeeGrowth with raw magnitude
floor(fee × 10^24 × 10^6 / liquidity); it fails on zero liquidity; and
from_fee(Liquidity.from_integer 2, TokenAmount 1) = FeeGrowth.from_scale 5 1. -/
theorem C2_from_fee_correct :
    (∀ (l : Liquidity) (fee : TokenAmount), l.v ≠ 0 → fee.v < U64_LIMIT →
      fee.v * 10 ^ 24 * 10 ^ 6 / l.v < U128_LIMIT →
      FeeGrowth.from_fee l fee = some ⟨fee.v * 10 ^ 24 * 10 ^ 6 / l.v⟩) ∧
    (∀ (l : Liquidity) (fee : TokenAmount), l.v = 0 →
      FeeGrowth.from_fee l fee = none) ∧
    FeeGrowth.from_fee (Liquidity.from_integer 2) ⟨1⟩
        = some (FeeGrowth.from_scale 5 1) := by
  refine ⟨fun l fee hl hfee hq => ?_,
    fun l fee hl => from_fee_zero l fee hl, by decide⟩
  rw [from_fee_eq l fee hl hfee, if_pos hq]

/-- Witness for C2 on concrete inputs: a success and a zero-liquidity failure. -/
theorem C2_from_fee_correct_witness :
    FeeGrowth.from_fee ⟨5⟩ ⟨7⟩ = some ⟨7 * 10 ^ 24 * 10 ^ 6 / 5⟩ ∧
    FeeGrowth.from_fee ⟨0⟩ ⟨3⟩ = none :=
  ⟨C2_from_fee_correct.1 ⟨5⟩ ⟨7⟩ (by decide) (by decide) (by decide),
   C2_from_fee_correct.2.1 ⟨0⟩ ⟨3⟩ rfl⟩

/-- C3: for in-range (u128) operands, to_fee returns the FixedPoint with
raw magnitude floor(growth × liquidity / 10^(24+6-12)) when that fits
u128, and reports failure (returns no value, never saturates) when it
does not. -/
theorem C3_to_fee_narrowing (g : FeeGrowth) (l : Liquidity)
    (hg : g.v < U128_LIMIT) (hl : l.v < U128_LIMIT) :
    FeeGrowth.to_fee g l =
      if g.v * l.v / 10 ^ 18 < U128_LIMIT
      then some ⟨g.v * l.v / 10 ^ 18⟩ else none :=
  to_fee_eq g l hg hl

/-- Witness for C3 on concrete inputs: one fitting result, one overflow. -/
theorem C3_to_fee_narrowing_witness :
    FeeGrowth.to_fee ⟨10 ^ 24⟩ ⟨10 ^ 6⟩ =
      (if (10:Nat) ^ 24 * 10 ^ 6 / 10 ^ 18 < U128_LIMIT
       then some ⟨10 ^ 24 * 10 ^ 6 / 10 ^ 18⟩ else none) ∧
    FeeGrowth.to_fee ⟨2 ^ 127⟩ ⟨2 ^ 127⟩ =
      (if (2:Nat) ^ 127 * 2 ^ 127 / 10 ^ 18 < U128_LIMIT
       then some ⟨2 ^ 127 * 2 ^ 127 / 10 ^ 18⟩ else none) :=
  ⟨C3_to_fee_narrowing ⟨10 ^ 24⟩ ⟨10 ^ 6⟩ (by decide) (by decide),
   C3_to_fee_narrowing ⟨2 ^ 127⟩ ⟨2 ^ 127⟩ (by decide) (by decide)⟩

/-- C10: for nonzero liquidity and a u64 fee, from_fee fails exactly when
floor(fee × 10^30 / liquidity) does not fit u128 — so its failure is not
limited to zero liquidity; the closed conjunct shows a nonzero liquidity
on which it fails. -/
theorem C10_from_fee_overflow :
    (∀ (l : Liquidity) (fee : TokenAmount), l.v ≠ 0 → fee.v < U64_LIMIT →
      U128_LIMIT ≤ fee.v * 10 ^ 24 * 10 ^ 6 / l.v →
      FeeGrowth.from_fee l fee = none) ∧
    (∀ (l : Liquidity) (fee : TokenAmount), l.v ≠ 0 → fee.v < U64_LIMIT →
      fee.v * 10 ^ 24 * 10 ^ 6 / l.v < U128_LIMIT →
      FeeGrowth.from_fee l fee ≠ none) ∧
    FeeGrowth.from_fee ⟨1⟩ ⟨18446744073709551615⟩ = none := by
  refine ⟨fun l fee hl hfee hq => ?_, fun l fee hl hfee hq => ?_, by decide⟩
  · rw [from_fee_eq l fee hl hfee, if_neg (Nat.not_lt.mpr hq)]
  · rw [from_fee_eq l fee hl hfee, if_pos hq]
    simp

/-- Witness for C10: a fitting and a non-fitting quotient, both with
nonzero liquidity. -/
theorem C10_from_fee_overflow_witness :
    FeeGrowth.from_fee ⟨1⟩ ⟨2⟩ ≠ none ∧
    FeeGrowth.from_fee ⟨1⟩ ⟨10 ^ 15⟩ = none :=
  ⟨C10_from_fee_overflow.2.1 ⟨1⟩ ⟨2⟩ (by decide) (by decide) (by decide),
   C10_from_fee_overflow.1 ⟨1⟩ ⟨10 ^ 15⟩ (by decide) (by decide) (by decide)⟩

/-- C4 counterexample: liquidity with raw magnitude 3 and fee 1. No
operation overflows (every step returns a value), yet the round trip
yields 0.999999999999 instead of FixedPoint.from_decimal 1 = 1.0: the
floor in from_fee loses the remainder of 10^30 / 3. -/
theorem C4_round_trip_counterexample :
    (FeeGrowth.from_fee ⟨3⟩ ⟨1⟩).bind (fun g => FeeGrowth.to_fee g ⟨3⟩)
        = some ⟨999999999999⟩ ∧
    FixedPoint.from_decimal ⟨1⟩ = ⟨1000000000000⟩ ∧
    ((⟨999999999999⟩ : FixedPoint) ≠ ⟨1000000000000⟩) := by
  decide

/-- C4 (amended): the round trip
to_fee(from_fee(L, amount), L) = FixedPoint.from_decimal(amount) holds
whenever no overflow occurs and additionally L.v divides
amount × 10^30 exactly (the floor division loses nothing); the claimed
scenario L = Liquidity.from_integer 1_000_000, amount = TokenAmount 100
satisfies this. -/
theorem C4_round_trip (l : Liquidity) (amount : TokenAmount)
    (hl : l.v ≠ 0) (hl128 : l.v < U128_LIMIT) (hfee : amount.v < U64_LIMIT)
    (hdvd : l.v ∣ amount.v * 10 ^ 30)
    (hq : amount.v * 10 ^ 30 / l.v < U128_LIMIT) :
    (FeeGrowth.from_fee l amount).bind (fun g => FeeGrowth.to_fee g l)
        = some (FixedPoint.from_decimal amount) := by
  have e30 : amount.v * 10 ^ 24 * 10 ^ 6 = amount.v * 10 ^ 30 := by
    rw [mul_assoc]
    norm_num
  rw [from_fee_eq l amount hl hfee, e30, if_pos hq]
  simp only [Option.some_bind]
  rw [to_fee_eq ⟨amount.v * 10 ^ 30 / l.v⟩ l hq hl128]
  have hcancel : amount.v * 10 ^ 30 / l.v * l.v = amount.v * 10 ^ 30 :=
    Nat.div_mul_cancel hdvd
  have h12 : amount.v * 10 ^ 30 / 10 ^ 18 = amount.v * 10 ^ 12 := by
    rw [show (10:Nat) ^ 30 = 10 ^ 12 * 10 ^ 18 by norm_num, ← mul_assoc]
    exact Nat.mul_div_cancel _ (by positivity)
  have hfit : amount.v * 10 ^ 12 < U128_LIMIT := by
    have h1 : amount.v * 10 ^ 12 < U64_LIMIT * 10 ^ 12 :=
      mul_lt_mul_of_pos_right hfee (by positivity)
    have h2 : U64_LIMIT * 10 ^ 12 < U128_LIMIT := by
      norm_num [U64_LIMIT, U128_LIMIT]
    exact lt_trans h1 h2
  norm_num at hcancel h12 hfit
  norm_num [FixedPoint.from_decimal, FixedPoint.one, FixedPoint.scale,
    hcancel, h12, hfit]

/-- Witness for C4 (amended) at the claimed scenario. -/
theorem C4_round_trip_witness :
    (FeeGrowth.from_fee (Liquidity.from_integer 1000000) ⟨100⟩).bind
        (fun g => FeeGrowth.to_fee g (Liquidity.from_integer 1000000))
      = some (FixedPoint.from_decimal ⟨100⟩) :=
  C4_round_trip (Liquidity.from_integer 1000000) ⟨100⟩ (by decide) (by decide)
    (by decide) (by decide) (by decide)

/-- C9 counterexample: a nominator for which nominator × 10^24 overflows
256 bits. big_div_values_to_token_up panics (the .unwrap() after
checked_mul), instead of returning the absence value that the claim
promises for every intermediate overflow. -/
theorem C9_big_div_counterexample :
    Price.big_div_values_to_token_up (2 ^ 232) 1 = Except.error () ∧
    (1:Nat) ≠ 0 := by
  decide

/-- C9 (amended): for a nonzero denominator,
big_div_values_to_token never panics: it returns the absence value on a
256-bit overflow of the extended nominator or when the floor quotient
does not fit u64, and Some(floor(nominator / denominator)) otherwise.
big_div_values_to_token_up, by contrast, panics on intermediate
overflow; when every intermediate fits 256 bits it returns
Some(ceil(nominator / denominator)) or the absence value if that does
not fit u64. -/
theorem C9_big_div_values_to_token_spec :
    (∀ n d : Nat, d ≠ 0 →
      Price.big_div_values_to_token n d =
        Except.ok (if n * 10 ^ 24 < U256_LIMIT then
            (if n / d < U64_LIMIT then some ⟨n / d⟩ else none)
          else none)) ∧
    (∀ n d : Nat, d ≠ 0 → n * 10 ^ 24 + 10 ^ 24 + d ≤ U256_LIMIT →
      Price.big_div_values_to_token_up n d =
        Except.ok (if (n + d - 1) / d < U64_LIMIT
          then some ⟨(n + d - 1) / d⟩ else none)) := by
  have hone : Price.one = 10 ^ 24 := rfl
  have halmost : Price.almost_one = 10 ^ 24 - 1 := rfl
  have hE1 : (0:Nat) < 10 ^ 24 := by positivity
  constructor
  · intro n d hd
    by_cases hov : n * 10 ^ 24 < U256_LIMIT
    · have s1 : U256.checked_mul n Price.one = some (n * 10 ^ 24) := by
        unfold U256.checked_mul
        rw [hone, if_pos hov]
      have s2 : U256.checked_div (n * 10 ^ 24) d = some (n * 10 ^ 24 / d) := by
        unfold U256.checked_div
        rw [if_neg hd]
      have s3 : U256.checked_div (n * 10 ^ 24 / d) Price.one
          = some (n * 10 ^ 24 / d / 10 ^ 24) := by
        unfold U256.checked_div
        rw [hone, if_neg (by positivity)]
      have hdd : n * 10 ^ 24 / d / 10 ^ 24 = n / d := by
        rw [Nat.div_div_eq_div_mul, Nat.mul_div_mul_right n d hE1]
      unfold Price.big_div_values_to_token
      rw [s1]
      show (match (U256.checked_div (n * 10 ^ 24) d).bind (fun t =>
              U256.checked_div t Price.one) with
            | none => Except.error ()
            | some token_amount =>
              if token_amount < U64_LIMIT
              then Except.ok (some (TokenAmount.mk token_amount))
              else Except.ok none)
          = Except.ok (if n * 10 ^ 24 < U256_LIMIT then
              (if n / d < U64_LIMIT then some (TokenAmount.mk (n / d)) else none)
            else none)
      rw [s2, Option.some_bind, s3]
      show (if n * 10 ^ 24 / d / 10 ^ 24 < U64_LIMIT
            then Except.ok (some (TokenAmount.mk (n * 10 ^ 24 / d / 10 ^ 24)))
            else Except.ok none)
          = Except.ok (if n * 10 ^ 24 < U256_LIMIT then
              (if n / d < U64_LIMIT then some (TokenAmount.mk (n / d)) else none)
            else none)
      rw [hdd, if_pos hov]
      by_cases hfin : n / d < U64_LIMIT
      · rw [if_pos hfin, if_pos hfin]
      · rw [if_neg hfin, if_neg hfin]
    · have s1 : U256.checked_mul n Price.one = none := by
        unfold U256.checked_mul
        rw [hone, if_neg hov]
      unfold Price.big_div_values_to_token
      rw [s1, if_neg hov]
  · intro n d hd H
    have hd1 : 0 < d := Nat.pos_of_ne_zero hd
    have hd2 : 1 ≤ d := hd1
    have b1 : n * 10 ^ 24 < U256_LIMIT := by
      unfold U256_LIMIT at H ⊢
      omega
    have b2 : n * 10 ^ 24 + (d - 1) < U256_LIMIT := by
      unfold U256_LIMIT at H ⊢
      omega
    have hq1 : (n * 10 ^ 24 + (d - 1)) / d ≤ n * 10 ^ 24 + (d - 1) :=
      Nat.div_le_self _ _
    have b3 : (n * 10 ^ 24 + (d - 1)) / d + (10 ^ 24 - 1) < U256_LIMIT := by
      unfold U256_LIMIT at H hq1 b2 ⊢
      omega
    have key : ((n * 10 ^ 24 + (d - 1)) / d + (10 ^ 24 - 1)) / 10 ^ 24
        = (n + d - 1) / d := by
      have e1 : n * 10 ^ 24 + (d - 1) = n * 10 ^ 24 + d - 1 := by omega
      have e2 : ∀ q : Nat, q + (10 ^ 24 - 1) = q + 10 ^ 24 - 1 := fun q => by omega
      rw [e1, e2, ceil_ceil (n * 10 ^ 24) d (10 ^ 24) hd1 hE1,
        ceil_mul_right n d (10 ^ 24) hd1 hE1]
    have s1 : U256.checked_mul n Price.one = some (n * 10 ^ 24) := by
      unfold U256.checked_mul
      rw [hone, if_pos b1]
    have s2 : U256.checked_sub d 1 = some (d - 1) := by
      unfold U256.checked_sub
      rw [if_pos hd2]
    have s3 : U256.checked_add (n * 10 ^ 24) (d - 1)
        = some (n * 10 ^ 24 + (d - 1)) := by
      unfold U256.checked_add
      rw [if_pos b2]
    have s4 : U256.checked_div (n * 10 ^ 24 + (d - 1)) d
        = some ((n * 10 ^ 24 + (d - 1)) / d) := by
      unfold U256.checked_div
      rw [if_neg hd]
    have s5 : U256.checked_add ((n * 10 ^ 24 + (d - 1)) / d) Price.almost_one
        = some ((n * 10 ^ 24 + (d - 1)) / d + (10 ^ 24 - 1)) := by
      unfold U256.checked_add
      rw [halmost, if_pos b3]
    have s6 : U256.checked_div
          ((n * 10 ^ 24 + (d - 1)) / d + (10 ^ 24 - 1)) Price.one
        = some (((n * 10 ^ 24 + (d - 1)) / d + (10 ^ 24 - 1)) / 10 ^ 24) := by
      unfold U256.checked_div
      rw [hone, if_neg (by positivity)]
    have schain : (U256.checked_mul n Price.one).bind (fun a =>
          (U256.checked_sub d 1).bind (fun dm1 =>
          (U256.checked_add a dm1).bind (fun b =>
          (U256.checked_div b d).bind (fun c =>
          (U256.checked_add c Price.almost_one).bind (fun e =>
          U256.checked_div e Price.one)))))
        = some (((n * 10 ^ 24 + (d - 1)) / d + (10 ^ 24 - 1)) / 10 ^ 24) := by
      rw [s1, Option.some_bind, s2, Option.some_bind, s3, Option.some_bind,
        s4, Option.some_bind, s5, Option.some_bind, s6]
    unfold Price.big_div_values_to_token_up
    rw [schain]
    show (if ((n * 10 ^ 24 + (d - 1)) / d + (10 ^ 24 - 1)) / 10 ^ 24 < U64_LIMIT
      then Except.ok (some
        (TokenAmount.mk (((n * 10 ^ 24 + (d - 1)) / d + (10 ^ 24 - 1)) / 10 ^ 24)))
      else Except.ok none)
        = Except.ok (if (n + d - 1) / d < U64_LIMIT
            then some (TokenAmount.mk ((n + d - 1) / d)) else none)
    rw [key]
    by_cases hfin : (n + d - 1) / d < U64_LIMIT
    · rw [if_pos hfin, if_pos hfin]
    · rw [if_neg hfin, if_neg hfin]

/-- Witness for C9 (amended): both conversions on nominator 5,
denominator 2 — floor 2, ceiling 3. -/
theorem C9_big_div_values_to_token_spec_witness :
    Price.big_div_values_to_token 5 2 =
      Except.ok (if 5 * 10 ^ 24 < U256_LIMIT then
          (if 5 / 2 < U64_LIMIT then some ⟨5 / 2⟩ else none)
        else none) ∧
    Price.big_div_values_to_token_up 5 2 =
      Except.ok (if (5 + 2 - 1) / 2 < U64_LIMIT
        then some ⟨(5 + 2 - 1) / 2⟩ else none) :=
  ⟨C9_big_div_values_to_token_spec.1 5 2 (by decide),
   C9_big_div_values_to_token_spec.2 5 2 (by decide) (by decide)⟩
